import Mathlib

/-!
Verification of the numeric core of the ruler first-natural-frequency
calculator (src/ruler_frequency/app.py): the cantilever characteristic
equation, the natural-frequency formula, the root-solver call site, and
the damped free-vibration trace. The Python floating-point arithmetic is
embedded shallowly over the real numbers.
-/

namespace RulerFrequency

noncomputable section

/-- Embeds `equation(p, l)` (app.py line 24): the cantilever characteristic
function `1 + cos(p*l) * cosh(p*l)` whose zeros are the modal roots. -/
def equation (p l : ℝ) : ℝ := 1 + Real.cos (p * l) * Real.cosh (p * l)

/-- Embeds `calculate_first_frequency(p, L, E, I, rho, A)` (app.py line 29):
first natural frequency in Hz.  The argument `L` is accepted and unused,
exactly as in the source. -/
def calculate_first_frequency (p L E I rho A : ℝ) : ℝ :=
  let stiffness_mass_ratio := Real.sqrt ((E * I) / (rho * A))
  p ^ 2 * stiffness_mass_ratio / (2 * Real.pi)

/-- Embeds the unit conversion `E = E_GPa * 10 ** 9` (app.py line 97). -/
def E_of_GPa (e_gpa : ℝ) : ℝ := e_gpa * 10 ^ 9

/-- Embeds `I = (b * h ** 3) / 12` (app.py line 98): second moment of area. -/
def second_moment (b h : ℝ) : ℝ := b * h ^ 3 / 12

/-- Embeds `A = b * h` (app.py line 99): cross-sectional area. -/
def cross_area (b h : ℝ) : ℝ := b * h

/-- Embeds `initial_guess = 1.875 / L` (app.py line 102). -/
def initial_guess (L : ℝ) : ℝ := 1.875 / L

/-- Embeds the `xtol=1e-12` argument of the `fsolve` call (app.py line 107). -/
def xtol : ℝ := 1e-12

/-- Embeds the `maxfev=5000` argument of the `fsolve` call (app.py line 108). -/
def maxfev : ℕ := 5000

/-- Result record assembled by the compute block (app.py lines 103-112,138):
root `p_value = solution[0]`, residual `error = abs(equation(p_value, L))`,
and the success flag derived from `ier == 1`. -/
structure SolveResult where
  p : ℝ
  error : ℝ
  success : Bool

/-- Embeds the `fsolve` call site (app.py lines 102-112).  The iterative
MINPACK routine itself is external scipy library code, so it is abstracted
as a parameter ` fsolve` mapping (guess, L, xtol, maxfev) to
(solution[0], ier); the embedding records exactly which configuration the
source passes and how the result fields are assembled from the outcome. -/
def solve_root (fsolve : ℝ → ℝ → ℝ → ℕ → ℝ × ℤ) (L : ℝ) : SolveResult :=
  { p := (fsolve (initial_guess L) L xtol maxfev).1
    error := |equation (fsolve (initial_guess L) L xtol maxfev).1 L|
    success := (fsolve (initial_guess L) L xtol maxfev).2 == 1 }

/-- Embeds `omega_n = 2 * np.pi * f_n` (app.py line 114). -/
def omega_n_of (f_n : ℝ) : ℝ := 2 * Real.pi * f_n

/-- Embeds `omega_d = omega_n * np.sqrt(1 - zeta ** 2) if zeta < 1 else 0`
(app.py line 117). -/
def omega_d (zeta omega_n : ℝ) : ℝ :=
  if zeta < 1 then omega_n * Real.sqrt (1 - zeta ^ 2) else 0

/-- Embeds `phi = 0` (app.py line 118): the fixed initial phase. -/
def phi : ℝ := 0

/-- Embeds `f_nn = omega_d / (2 * np.pi)` (app.py line 119): damped frequency. -/
def f_nn (zeta omega_n : ℝ) : ℝ := omega_d zeta omega_n / (2 * Real.pi)

/-- Embeds `t = np.linspace(0, duration, 1000)` (app.py line 121): the i-th of
the 1000 uniformly spaced sample times, `duration * i / 999` for `i ≤ 999`. -/
def linspace (duration : ℝ) (i : ℕ) : ℝ := duration * i / 999

/-- Embeds the displacement branch (app.py lines 122-125): underdamped
oscillation when `zeta < 1`, pure exponential decay otherwise, evaluated at
the i-th sample time. -/
def displacement (zeta omega_n amplitude duration : ℝ) (i : ℕ) : ℝ :=
  if zeta < 1 then
    amplitude * Real.exp (-zeta * omega_n * linspace duration i) *
      Real.cos (omega_d zeta omega_n * linspace duration i + phi)
  else
    amplitude * Real.exp (-zeta * omega_n * linspace duration i)

/-- Embeds `envelope = amplitude * np.exp(-zeta * omega_n * t)` (app.py
line 153): the decay envelope drawn when `0 < zeta < 1`. -/
def envelope (zeta omega_n amplitude duration : ℝ) (i : ℕ) : ℝ :=
  amplitude * Real.exp (-zeta * omega_n * linspace duration i)

/-- Embeds the `min_value=0.01` bound of the length widget (app.py line 42). -/
def L_min : ℝ := 0.01

/-- Embeds the `min_value=0.001` bound of the width widget (app.py line 48). -/
def b_min : ℝ := 0.001

/-- Embeds the `min_value=0.0001` bound of the height widget (app.py line 54). -/
def h_min : ℝ := 0.0001

/-- Embeds the `min_value=100` bound of the density widget (app.py line 62). -/
def rho_min : ℝ := 100

/-- Embeds the `min_value=0.1` bound of the modulus widget (app.py line 67). -/
def E_GPa_min : ℝ := 0.1

/-- Embeds the `min_value=0.001` bound of the amplitude slider (app.py line 80). -/
def amplitude_min : ℝ := 0.001

/-- Embeds the `min_value=0.5` bound of the duration slider (app.py line 75). -/
def duration_min : ℝ := 0.5

/-- C1: for strictly positive E, I, rho, A the natural-frequency operation
returns exactly (p² / 2π)·√(E·I / (ρ·A)), and the value is non-negative. -/
theorem C1_natural_frequency_formula (p L E I rho A : ℝ)
    (hE : 0 < E) (hI : 0 < I) (hrho : 0 < rho) (hA : 0 < A) :
    calculate_first_frequency p L E I rho A =
      p ^ 2 / (2 * Real.pi) * Real.sqrt (E * I / (rho * A)) ∧
    0 ≤ calculate_first_frequency p L E I rho A := by
  unfold calculate_first_frequency
  constructor
  · ring
  · positivity

theorem C1_witness :
    calculate_first_frequency 1 1 1 1 1 1 =
      1 ^ 2 / (2 * Real.pi) * Real.sqrt (1 * 1 / (1 * 1)) ∧
    0 ≤ calculate_first_frequency 1 1 1 1 1 1 :=
  C1_natural_frequency_formula 1 1 1 1 1 1 (by norm_num) (by norm_num)
    (by norm_num) (by norm_num)

/-- C2: for 0 ≤ ζ < 1 every sample equals A₀·e^(−ζωₙt)·cos(ω_d·t + φ) with
ω_d = ωₙ·√(1−ζ²); for ζ ≥ 1 every sample equals the pure exponential decay
A₀·e^(−ζωₙt) and ω_d is zero. -/
theorem C2_trace_regimes (zeta omega_n amplitude duration : ℝ) (i : ℕ) :
    (0 ≤ zeta → zeta < 1 →
      displacement zeta omega_n amplitude duration i =
        amplitude * Real.exp (-zeta * omega_n * linspace duration i) *
          Real.cos (omega_n * Real.sqrt (1 - zeta ^ 2) * linspace duration i + phi) ∧
      omega_d zeta omega_n = omega_n * Real.sqrt (1 - zeta ^ 2)) ∧
    (1 ≤ zeta →
      displacement zeta omega_n amplitude duration i =
        amplitude * Real.exp (-zeta * omega_n * linspace duration i) ∧
      omega_d zeta omega_n = 0) := by
  constructor
  · intro _ h1
    simp only [displacement, omega_d, if_pos h1]
    exact ⟨trivial, trivial⟩
  · intro h1
    have h2 : ¬ zeta < 1 := not_lt.2 h1
    simp only [displacement, omega_d, if_neg h2]
    exact ⟨trivial, trivial⟩

theorem C2_witness :
    (displacement 0.5 2 3 1 7 =
      3 * Real.exp (-0.5 * 2 * linspace 1 7) *
        Real.cos (2 * Real.sqrt (1 - 0.5 ^ 2) * linspace 1 7 + phi)) ∧
    (displacement 2 2 3 1 7 = 3 * Real.exp (-2 * 2 * linspace 1 7) ∧
      omega_d 2 2 = 0) :=
  ⟨((C2_trace_regimes 0.5 2 3 1 7).1 (by norm_num) (by norm_num)).1,
    (C2_trace_regimes 2 2 3 1 7).2 (by norm_num)⟩

/-- C7: at ζ = 0 the underdamped branch reduces to undamped simple harmonic
motion A₀·cos(ωₙ·t + φ) at every sample point, and ω_d equals ωₙ. -/
theorem C7_zeta_zero_shm (omega_n amplitude duration : ℝ) (i : ℕ) :
    displacement 0 omega_n amplitude duration i =
      amplitude * Real.cos (omega_n * linspace duration i + phi) ∧
    omega_d 0 omega_n = omega_n := by
  have h01 : (0 : ℝ) < 1 := one_pos
  have hd : omega_d 0 omega_n = omega_n := by
    simp only [omega_d, if_pos h01]
    norm_num [Real.sqrt_one]
  refine ⟨?_, hd⟩
  simp only [displacement, if_pos h01, hd]
  norm_num [Real.exp_zero]

/-- C10: at the first sample (t = 0) the displacement equals A₀ exactly in
both branches, because the initial phase is fixed at φ = 0. -/
theorem C10_initial_sample (zeta omega_n amplitude duration : ℝ)
    (hz : 0 ≤ zeta) (hA : 0 < amplitude) :
    displacement zeta omega_n amplitude duration 0 = amplitude ∧ phi = 0 := by
  have ht : linspace duration 0 = 0 := by simp [linspace]
  refine ⟨?_, rfl⟩
  by_cases h : zeta < 1
  · simp only [displacement, if_pos h, ht, phi]
    norm_num [Real.exp_zero, Real.cos_zero]
  · simp only [displacement, if_neg h, ht]
    norm_num [Real.exp_zero]

theorem C10_witness :
    displacement 0 1 1 1 0 = 1 ∧ phi = 0 :=
  C10_initial_sample 0 1 1 1 (le_refl 0) one_pos

/-- C5: with all inputs strictly positive and the others held fixed, the
natural-frequency operation is strictly increasing in E and in p and
strictly decreasing in ρ and in A. -/
theorem C5_monotone_sensitivity (p p' L E E' I rho rho' A A' : ℝ)
    (hp : 0 < p) (hE : 0 < E) (hI : 0 < I) (hrho : 0 < rho) (hA : 0 < A) :
    (E < E' →
      calculate_first_frequency p L E I rho A < calculate_first_frequency p L E' I rho A) ∧
    (p < p' →
      calculate_first_frequency p L E I rho A < calculate_first_frequency p' L E I rho A) ∧
    (rho < rho' →
      calculate_first_frequency p L E I rho' A < calculate_first_frequency p L E I rho A) ∧
    (A < A' →
      calculate_first_frequency p L E I rho A' < calculate_first_frequency p L E I rho A) := by
  have h2pi : (0 : ℝ) < 2 * Real.pi := by positivity
  have hp2 : (0 : ℝ) < p ^ 2 := by positivity
  refine ⟨?_, ?_, ?_, ?_⟩
  · intro hEE
    have h1 : E * I / (rho * A) < E' * I / (rho * A) :=
      (div_lt_div_iff_of_pos_right (by positivity)).2 ((mul_lt_mul_right hI).2 hEE)
    have hsq := Real.sqrt_lt_sqrt (by positivity) h1
    show p ^ 2 * Real.sqrt (E * I / (rho * A)) / (2 * Real.pi) <
      p ^ 2 * Real.sqrt (E' * I / (rho * A)) / (2 * Real.pi)
    exact (div_lt_div_iff_of_pos_right h2pi).2 ((mul_lt_mul_left hp2).2 hsq)
  · intro hpp
    have hpp2 : p ^ 2 < p' ^ 2 := by nlinarith
    have hsqpos : 0 < Real.sqrt (E * I / (rho * A)) := Real.sqrt_pos.2 (by positivity)
    show p ^ 2 * Real.sqrt (E * I / (rho * A)) / (2 * Real.pi) <
      p' ^ 2 * Real.sqrt (E * I / (rho * A)) / (2 * Real.pi)
    exact (div_lt_div_iff_of_pos_right h2pi).2 ((mul_lt_mul_right hsqpos).2 hpp2)
  · intro hrr
    have h1 : E * I / (rho' * A) < E * I / (rho * A) :=
      div_lt_div_of_pos_left (mul_pos hE hI) (mul_pos hrho hA) ((mul_lt_mul_right hA).2 hrr)
    have hsq := Real.sqrt_lt_sqrt
      (le_of_lt (div_pos (mul_pos hE hI) (mul_pos (lt_trans hrho hrr) hA))) h1
    show p ^ 2 * Real.sqrt (E * I / (rho' * A)) / (2 * Real.pi) <
      p ^ 2 * Real.sqrt (E * I / (rho * A)) / (2 * Real.pi)
    exact (div_lt_div_iff_of_pos_right h2pi).2 ((mul_lt_mul_left hp2).2 hsq)
  · intro hAA
    have h1 : E * I / (rho * A') < E * I / (rho * A) :=
      div_lt_div_of_pos_left (mul_pos hE hI) (mul_pos hrho hA) ((mul_lt_mul_left hrho).2 hAA)
    have hsq := Real.sqrt_lt_sqrt
      (le_of_lt (div_pos (mul_pos hE hI) (mul_pos hrho (lt_trans hA hAA)))) h1
    show p ^ 2 * Real.sqrt (E * I / (rho * A')) / (2 * Real.pi) <
      p ^ 2 * Real.sqrt (E * I / (rho * A)) / (2 * Real.pi)
    exact (div_lt_div_iff_of_pos_right h2pi).2 ((mul_lt_mul_left hp2).2 hsq)

theorem C5_witness :
    (calculate_first_frequency 1 1 1 1 1 1 < calculate_first_frequency 1 1 2 1 1 1) ∧
    (calculate_first_frequency 1 1 1 1 1 1 < calculate_first_frequency 2 1 1 1 1 1) ∧
    (calculate_first_frequency 1 1 1 1 2 1 < calculate_first_frequency 1 1 1 1 1 1) ∧
    (calculate_first_frequency 1 1 1 1 1 2 < calculate_first_frequency 1 1 1 1 1 1) := by
  have h := C5_monotone_sensitivity 1 2 1 1 2 1 1 2 1 2 (by norm_num) (by norm_num)
    (by norm_num) (by norm_num) (by norm_num)
  exact ⟨h.1 (by norm_num), h.2.1 (by norm_num), h.2.2.1 (by norm_num),
    h.2.2.2 (by norm_num)⟩

/-- C6: for 0 < ζ < 1 and A₀ > 0 the decay envelope bounds the magnitude of
the oscillatory displacement at every sample point. -/
theorem C6_envelope_bounds_trace (zeta omega_n amplitude duration : ℝ) (i : ℕ)
    (h0 : 0 < zeta) (h1 : zeta < 1) (hA : 0 < amplitude) :
    |displacement zeta omega_n amplitude duration i| ≤
      envelope zeta omega_n amplitude duration i := by
  simp only [displacement, envelope, if_pos h1]
  rw [abs_mul, abs_mul, abs_of_pos hA,
    abs_of_pos (Real.exp_pos (-zeta * omega_n * linspace duration i))]
  have hcos := Real.abs_cos_le_one (omega_d zeta omega_n * linspace duration i + phi)
  have hexp := (Real.exp_pos (-zeta * omega_n * linspace duration i)).le
  nlinarith [mul_nonneg hA.le hexp]

theorem C6_witness :
    |displacement 0.5 1 1 1 3| ≤ envelope 0.5 1 1 1 3 :=
  C6_envelope_bounds_trace 0.5 1 1 1 3 (by norm_num) (by norm_num) (by norm_num)

/-- C8: in the critically damped or overdamped regime (ζ ≥ 1), with positive
amplitude, natural angular frequency and duration, every sample is strictly
positive (so the trace never changes sign) and consecutive samples strictly
decrease in magnitude. -/
theorem C8_overdamped_decay (zeta omega_n amplitude duration : ℝ) (i : ℕ)
    (hz : 1 ≤ zeta) (hA : 0 < amplitude) (hw : 0 < omega_n) (hd : 0 < duration)
    (hi : i + 1 ≤ 999) :
    0 < displacement zeta omega_n amplitude duration i ∧
    0 < displacement zeta omega_n amplitude duration (i + 1) ∧
    |displacement zeta omega_n amplitude duration (i + 1)| <
      |displacement zeta omega_n amplitude duration i| := by
  have hnl : ¬ zeta < 1 := not_lt.2 hz
  have hz0 : (0 : ℝ) < zeta := lt_of_lt_of_le one_pos hz
  simp only [displacement, if_neg hnl]
  have hpos1 : 0 < amplitude * Real.exp (-zeta * omega_n * linspace duration i) := by
    positivity
  have hpos2 : 0 < amplitude * Real.exp (-zeta * omega_n * linspace duration (i + 1)) := by
    positivity
  refine ⟨hpos1, hpos2, ?_⟩
  rw [abs_of_pos hpos2, abs_of_pos hpos1]
  have ht : linspace duration i < linspace duration (i + 1) := by
    simp only [linspace]
    have hcast : (i : ℝ) < ((i + 1 : ℕ) : ℝ) := by push_cast; linarith
    exact (div_lt_div_iff_of_pos_right (by norm_num)).2 ((mul_lt_mul_left hd).2 hcast)
  have harg : -zeta * omega_n * linspace duration (i + 1) <
      -zeta * omega_n * linspace duration i := by
    nlinarith [mul_pos (mul_pos hz0 hw) (sub_pos.2 ht)]
  exact (mul_lt_mul_left hA).2 (Real.exp_lt_exp.2 harg)

theorem C8_witness :
    0 < displacement 1 1 1 1 0 ∧ 0 < displacement 1 1 1 1 1 ∧
    |displacement 1 1 1 1 1| < |displacement 1 1 1 1 0| := by
  have h := C8_overdamped_decay 1 1 1 1 0 (by norm_num) (by norm_num) (by norm_num)
    (by norm_num) (by norm_num)
  exact h

/-- C9 counterexample: the core performs no input validation.  With the
invalid duration −1 (the spec requires duration > 0 to be enforced, and the
core to reject or report a violation), the trace routine silently returns
the ordinary numeric sample cos 1 at the last sample index instead of
rejecting or reporting the invalid input. -/
theorem C9_counterexample : displacement 0 1 1 (-1) 999 = Real.cos 1 := by
  have h01 : (0 : ℝ) < 1 := one_pos
  have hd : omega_d 0 1 = 1 := by
    simp only [omega_d, if_pos h01]
    norm_num [Real.sqrt_one]
  have ht : linspace (-1) 999 = -1 := by
    simp only [linspace]
    norm_num
  simp only [displacement, if_pos h01, hd, ht, phi]
  norm_num [Real.exp_zero, Real.cos_neg]

/-- C9 amended: the core itself tolerates zero or negative inputs and returns
ordinary numeric results for them; rejection of invalid inputs happens only
at the caller, whose input widgets clamp every parameter to a strictly
positive minimum, so the core never receives a zero or negative geometry,
material, amplitude or duration value from the app. -/
theorem C9_caller_validation (L b h rho e_gpa amplitude duration : ℝ)
    (hL : L_min ≤ L) (hb : b_min ≤ b) (hh : h_min ≤ h) (hrho : rho_min ≤ rho)
    (hE : E_GPa_min ≤ e_gpa) (hA : amplitude_min ≤ amplitude)
    (hd : duration_min ≤ duration) :
    0 < L ∧ 0 < b ∧ 0 < h ∧ 0 < rho ∧ 0 < E_of_GPa e_gpa ∧
    0 < second_moment b h ∧ 0 < cross_area b h ∧ 0 < amplitude ∧ 0 < duration := by
  rw [L_min] at hL
  rw [b_min] at hb
  rw [h_min] at hh
  rw [rho_min] at hrho
  rw [E_GPa_min] at hE
  rw [amplitude_min] at hA
  rw [duration_min] at hd
  have hb0 : (0 : ℝ) < b := by linarith
  have hh0 : (0 : ℝ) < h := by linarith
  refine ⟨by linarith, hb0, hh0, by linarith, ?_, ?_, ?_, by linarith, by linarith⟩
  · rw [E_of_GPa]; nlinarith
  · rw [second_moment]; positivity
  · rw [cross_area]; positivity

theorem C9_witness :
    0 < (0.01 : ℝ) ∧ 0 < (0.001 : ℝ) ∧ 0 < (0.0001 : ℝ) ∧ 0 < (100 : ℝ) ∧
    0 < E_of_GPa 0.1 ∧ 0 < second_moment 0.001 0.0001 ∧
    0 < cross_area 0.001 0.0001 ∧ 0 < (0.001 : ℝ) ∧ 0 < (0.5 : ℝ) :=
  C9_caller_validation 0.01 0.001 0.0001 100 0.1 0.001 0.5
    (by rw [L_min]) (by rw [b_min]) (by rw [h_min]) (by rw [rho_min])
    (by rw [E_GPa_min]) (by rw [amplitude_min]) (by rw [duration_min])

/-- C3: for any beam length L > 0, the root-solve call site seeds the search
at p₀ = 1.875 / L, passes convergence tolerance 1e-12 and an iteration
budget of 5000 ≥ 5000 evaluations, and returns the solver's root together
with the residual |1 + cos(p·L)·cosh(p·L)| and the boolean success flag
derived from the `ier == 1` status. -/
theorem C3_solver_configuration (fsolve : ℝ → ℝ → ℝ → ℕ → ℝ × ℤ) (L : ℝ)
    (hL : 0 < L) :
    initial_guess L = 1.875 / L ∧ xtol = 1e-12 ∧ 5000 ≤ maxfev ∧
    solve_root fsolve L =
      { p := (fsolve (1.875 / L) L (1e-12) 5000).1
        error := |equation (fsolve (1.875 / L) L (1e-12) 5000).1 L|
        success := (fsolve (1.875 / L) L (1e-12) 5000).2 == 1 } :=
  ⟨rfl, rfl, le_refl _, rfl⟩

theorem C3_witness :
    initial_guess 2 = 1.875 / 2 ∧ xtol = 1e-12 ∧ 5000 ≤ maxfev ∧
    solve_root (fun g _ _ _ => (g, 1)) 2 =
      { p := ((fun (g : ℝ) (_ : ℝ) (_ : ℝ) (_ : ℕ) => (g, (1 : ℤ))) (1.875 / 2) 2 (1e-12) 5000).1
        error := |equation ((fun (g : ℝ) (_ : ℝ) (_ : ℝ) (_ : ℕ) => (g, (1 : ℤ))) (1.875 / 2) 2 (1e-12) 5000).1 2|
        success := ((fun (g : ℝ) (_ : ℝ) (_ : ℝ) (_ : ℕ) => (g, (1 : ℤ))) (1.875 / 2) 2 (1e-12) 5000).2 == 1 } :=
  C3_solver_configuration (fun g _ _ _ => (g, 1)) 2 (by norm_num)

/-- Quartic Taylor lower bound for sin on [0, 1]. -/
theorem sin_lb_taylor {q a : ℝ} (h0 : 0 ≤ q) (h1 : q ≤ 1)
    (ha : a ≤ q - q ^ 3 / 6 - q ^ 4 * (5 / 96)) : a ≤ Real.sin q := by
  have habs : |q| = q := abs_of_nonneg h0
  have hq : |q| ≤ 1 := by rw [habs]; exact h1
  have hb := Real.sin_bound hq
  rw [habs] at hb
  have h2 := (abs_le.1 hb).1
  linarith

/-- Quartic Taylor upper bound for sin on [0, 1]. -/
theorem sin_ub_taylor {q a : ℝ} (h0 : 0 ≤ q) (h1 : q ≤ 1)
    (ha : q - q ^ 3 / 6 + q ^ 4 * (5 / 96) ≤ a) : Real.sin q ≤ a := by
  have habs : |q| = q := abs_of_nonneg h0
  have hq : |q| ≤ 1 := by rw [habs]; exact h1
  have hb := Real.sin_bound hq
  rw [habs] at hb
  have h2 := (abs_le.1 hb).2
  linarith

/-- Quartic Taylor lower bound for cos on [0, 1]. -/
theorem cos_lb_taylor {q a : ℝ} (h0 : 0 ≤ q) (h1 : q ≤ 1)
    (ha : a ≤ 1 - q ^ 2 / 2 - q ^ 4 * (5 / 96)) : a ≤ Real.cos q := by
  have habs : |q| = q := abs_of_nonneg h0
  have hq : |q| ≤ 1 := by rw [habs]; exact h1
  have hb := Real.cos_bound hq
  rw [habs] at hb
  have h2 := (abs_le.1 hb).1
  linarith

/-- Quartic Taylor upper bound for cos on [0, 1]. -/
theorem cos_ub_taylor {q a : ℝ} (h0 : 0 ≤ q) (h1 : q ≤ 1)
    (ha : 1 - q ^ 2 / 2 + q ^ 4 * (5 / 96) ≤ a) : Real.cos q ≤ a := by
  have habs : |q| = q := abs_of_nonneg h0
  have hq : |q| ≤ 1 := by rw [habs]; exact h1
  have hb := Real.cos_bound hq
  rw [habs] at hb
  have h2 := (abs_le.1 hb).2
  linarith

/-- Double-angle lower bound for sin from nonnegative bounds on sin and cos. -/
theorem sin_double_lb {x a b c : ℝ} (ha0 : 0 ≤ a) (hb0 : 0 ≤ b)
    (hsa : a ≤ Real.sin x) (hcb : b ≤ Real.cos x) (hc : c ≤ 2 * a * b) :
    c ≤ Real.sin (2 * x) := by
  rw [Real.sin_two_mul]
  have := mul_le_mul hsa hcb hb0 (ha0.trans hsa)
  linarith

/-- Double-angle upper bound for sin from nonnegative bounds on sin and cos. -/
theorem sin_double_ub {x a b c : ℝ} (hs0 : 0 ≤ Real.sin x) (hc0 : 0 ≤ Real.cos x)
    (hsa : Real.sin x ≤ a) (hcb : Real.cos x ≤ b) (hc : 2 * a * b ≤ c) :
    Real.sin (2 * x) ≤ c := by
  rw [Real.sin_two_mul]
  have := mul_le_mul hsa hcb hc0 (hs0.trans hsa)
  linarith

/-- Double-angle lower bound for cos from a nonnegative lower bound on cos. -/
theorem cos_double_lb {x b c : ℝ} (hb0 : 0 ≤ b) (hcb : b ≤ Real.cos x)
    (hc : c ≤ 2 * b ^ 2 - 1) : c ≤ Real.cos (2 * x) := by
  rw [Real.cos_two_mul]
  have : b ^ 2 ≤ Real.cos x ^ 2 := by nlinarith
  linarith

/-- Double-angle upper bound for cos from an upper bound on nonnegative cos. -/
theorem cos_double_ub {x b c : ℝ} (h0 : 0 ≤ Real.cos x) (hcb : Real.cos x ≤ b)
    (hc : 2 * b ^ 2 - 1 ≤ c) : Real.cos (2 * x) ≤ c := by
  rw [Real.cos_two_mul]
  have : Real.cos x ^ 2 ≤ b ^ 2 := by nlinarith
  linarith

/-- Upper bound for sin at 0.304279, via two double-angle steps from 0.07606975. -/
theorem sin_pt_a_ub : Real.sin 0.304279 ≤ 0.299612695 := by
  have hq0 : (0 : ℝ) ≤ 0.07606975 := by norm_num
  have hq1 : (0.07606975 : ℝ) ≤ 1 := by norm_num
  have hs_lb : (0.075994641 : ℝ) ≤ Real.sin 0.07606975 :=
    sin_lb_taylor hq0 hq1 (by norm_num)
  have hs_ub : Real.sin 0.07606975 ≤ 0.075998130 :=
    sin_ub_taylor hq0 hq1 (by norm_num)
  have hc_lb : (0.997104952 : ℝ) ≤ Real.cos 0.07606975 :=
    cos_lb_taylor hq0 hq1 (by norm_num)
  have hc_ub : Real.cos 0.07606975 ≤ 0.997108441 :=
    cos_ub_taylor hq0 hq1 (by norm_num)
  have hs0 : (0 : ℝ) ≤ Real.sin 0.07606975 := le_trans (by norm_num) hs_lb
  have hc0 : (0 : ℝ) ≤ Real.cos 0.07606975 := le_trans (by norm_num) hc_lb
  have hs2_lb : (0.151549265 : ℝ) ≤ Real.sin (2 * 0.07606975) :=
    sin_double_lb (by norm_num) (by norm_num) hs_lb hc_lb (by norm_num)
  have hs2_ub : Real.sin (2 * 0.07606975) ≤ 0.151556754 :=
    sin_double_ub hs0 hc0 hs_ub hc_ub (by norm_num)
  have hc2_lb : (0.988436570 : ℝ) ≤ Real.cos (2 * 0.07606975) :=
    cos_double_lb (by norm_num) hc_lb (by norm_num)
  have hc2_ub : Real.cos (2 * 0.07606975) ≤ 0.988450487 :=
    cos_double_ub hc0 hc_ub (by norm_num)
  have hs2_0 : (0 : ℝ) ≤ Real.sin (2 * 0.07606975) := le_trans (by norm_num) hs2_lb
  have hc2_0 : (0 : ℝ) ≤ Real.cos (2 * 0.07606975) := le_trans (by norm_num) hc2_lb
  have hfin : Real.sin (2 * (2 * 0.07606975)) ≤ 0.299612695 :=
    sin_double_ub hs2_0 hc2_0 hs2_ub hc2_ub (by norm_num)
  have he : (0.304279 : ℝ) = 2 * (2 * 0.07606975) := by norm_num
  rw [he]
  exact hfin

/-- Lower bound for sin at 0.3043385, via two double-angle steps. -/
theorem sin_pt_b_lb : (0.299650429 : ℝ) ≤ Real.sin 0.3043385 := by
  have hq0 : (0 : ℝ) ≤ 0.076084625 := by norm_num
  have hq1 : (0.076084625 : ℝ) ≤ 1 := by norm_num
  have hs_lb : (0.076009472 : ℝ) ≤ Real.sin 0.076084625 :=
    sin_lb_taylor hq0 hq1 (by norm_num)
  have hc_lb : (0.997103819 : ℝ) ≤ Real.cos 0.076084625 :=
    cos_lb_taylor hq0 hq1 (by norm_num)
  have hs2_lb : (0.151578669 : ℝ) ≤ Real.sin (2 * 0.076084625) :=
    sin_double_lb (by norm_num) (by norm_num) hs_lb hc_lb (by norm_num)
  have hc2_lb : (0.988432051 : ℝ) ≤ Real.cos (2 * 0.076084625) :=
    cos_double_lb (by norm_num) hc_lb (by norm_num)
  have hfin : (0.299650429 : ℝ) ≤ Real.sin (2 * (2 * 0.076084625)) :=
    sin_double_lb (by norm_num) (by norm_num) hs2_lb hc2_lb (by norm_num)
  have he : (0.3043385 : ℝ) = 2 * (2 * 0.076084625) := by norm_num
  rw [he]
  exact hfin

/-- Lower bound for sin at 0.3043835, via two double-angle steps. -/
theorem sin_pt_c_lb : (0.299693352 : ℝ) ≤ Real.sin 0.3043835 := by
  have hq0 : (0 : ℝ) ≤ 0.076095875 := by norm_num
  have hq1 : (0.076095875 : ℝ) ≤ 1 := by norm_num
  have hs_lb : (0.076020688 : ℝ) ≤ Real.sin 0.076095875 :=
    sin_lb_taylor hq0 hq1 (by norm_num)
  have hc_lb : (0.997102962 : ℝ) ≤ Real.cos 0.076095875 :=
    cos_lb_taylor hq0 hq1 (by norm_num)
  have hs2_lb : (0.151600906 : ℝ) ≤ Real.sin (2 * 0.076095875) :=
    sin_double_lb (by norm_num) (by norm_num) hs_lb hc_lb (by norm_num)
  have hc2_lb : (0.988428633 : ℝ) ≤ Real.cos (2 * 0.076095875) :=
    cos_double_lb (by norm_num) hc_lb (by norm_num)
  have hfin : (0.299693352 : ℝ) ≤ Real.sin (2 * (2 * 0.076095875)) :=
    sin_double_lb (by norm_num) (by norm_num) hs2_lb hc2_lb (by norm_num)
  have he : (0.3043835 : ℝ) = 2 * (2 * 0.076095875) := by norm_num
  rw [he]
  exact hfin

/-- Lower bound for cos at 1.875075, by shifting to sin near 0.3043. -/
theorem cos_pt_a_lb : (-0.299612695 : ℝ) ≤ Real.cos 1.875075 := by
  have hpl := Real.pi_gt_d6
  have hpu := Real.pi_lt_d6
  have he : Real.cos 1.875075 = -Real.sin (1.875075 - Real.pi / 2) := by
    rw [← Real.sin_pi_div_two_sub 1.875075,
      show Real.pi / 2 - 1.875075 = -(1.875075 - Real.pi / 2) by ring, Real.sin_neg]
  have hv_ub : 1.875075 - Real.pi / 2 ≤ 0.304279 := by linarith
  have hmem1 : (1.875075 - Real.pi / 2) ∈ Set.Icc (-(Real.pi / 2)) (Real.pi / 2) := by
    constructor <;> linarith
  have hmem2 : (0.304279 : ℝ) ∈ Set.Icc (-(Real.pi / 2)) (Real.pi / 2) := by
    constructor <;> linarith
  have hmono := Real.strictMonoOn_sin.monotoneOn hmem1 hmem2 hv_ub
  have hub := sin_pt_a_ub
  rw [he]
  linarith

/-- Upper bound for cos at 1.875135, by shifting to sin near 0.3043. -/
theorem cos_pt_b_ub : Real.cos 1.875135 ≤ -0.299650429 := by
  have hpl := Real.pi_gt_d6
  have hpu := Real.pi_lt_d6
  have he : Real.cos 1.875135 = -Real.sin (1.875135 - Real.pi / 2) := by
    rw [← Real.sin_pi_div_two_sub 1.875135,
      show Real.pi / 2 - 1.875135 = -(1.875135 - Real.pi / 2) by ring, Real.sin_neg]
  have hv_lb : (0.3043385 : ℝ) ≤ 1.875135 - Real.pi / 2 := by linarith
  have hmem1 : (0.3043385 : ℝ) ∈ Set.Icc (-(Real.pi / 2)) (Real.pi / 2) := by
    constructor <;> linarith
  have hmem2 : (1.875135 - Real.pi / 2) ∈ Set.Icc (-(Real.pi / 2)) (Real.pi / 2) := by
    constructor <;> linarith
  have hmono := Real.strictMonoOn_sin.monotoneOn hmem1 hmem2 hv_lb
  have hlb := sin_pt_b_lb
  rw [he]
  linarith

/-- Upper bound for cos at 1.87518, by shifting to sin near 0.3044. -/
theorem cos_pt_c_ub : Real.cos 1.87518 ≤ -0.299693352 := by
  have hpl := Real.pi_gt_d6
  have hpu := Real.pi_lt_d6
  have he : Real.cos 1.87518 = -Real.sin (1.87518 - Real.pi / 2) := by
    rw [← Real.sin_pi_div_two_sub 1.87518,
      show Real.pi / 2 - 1.87518 = -(1.87518 - Real.pi / 2) by ring, Real.sin_neg]
  have hv_lb : (0.3043835 : ℝ) ≤ 1.87518 - Real.pi / 2 := by linarith
  have hmem1 : (0.3043835 : ℝ) ∈ Set.Icc (-(Real.pi / 2)) (Real.pi / 2) := by
    constructor <;> linarith
  have hmem2 : (1.87518 - Real.pi / 2) ∈ Set.Icc (-(Real.pi / 2)) (Real.pi / 2) := by
    constructor <;> linarith
  have hmono := Real.strictMonoOn_sin.monotoneOn hmem1 hmem2 hv_lb
  have hlb := sin_pt_c_lb
  rw [he]
  linarith

/-- Order-9 Taylor bounds for exp on [0, 1], from the Mathlib series bound. -/
theorem exp_taylor9_bounds {w : ℝ} (h0 : 0 ≤ w) (h1 : w ≤ 1) :
    1 + w + w ^ 2 / 2 + w ^ 3 / 6 + w ^ 4 / 24 + w ^ 5 / 120 + w ^ 6 / 720 +
        w ^ 7 / 5040 + w ^ 8 / 40320 - w ^ 9 * (10 / 3265920) ≤ Real.exp w ∧
    Real.exp w ≤ 1 + w + w ^ 2 / 2 + w ^ 3 / 6 + w ^ 4 / 24 + w ^ 5 / 120 +
        w ^ 6 / 720 + w ^ 7 / 5040 + w ^ 8 / 40320 + w ^ 9 * (10 / 3265920) := by
  have habs : |w| = w := abs_of_nonneg h0
  have hw : |w| ≤ 1 := by rw [habs]; exact h1
  have hb := @Real.exp_bound w hw 9 (by norm_num)
  rw [habs] at hb
  have hsum : ∑ m ∈ Finset.range 9, w ^ m / m.factorial =
      1 + w + w ^ 2 / 2 + w ^ 3 / 6 + w ^ 4 / 24 + w ^ 5 / 120 + w ^ 6 / 720 +
        w ^ 7 / 5040 + w ^ 8 / 40320 := by
    simp [Finset.sum_range_succ, Nat.factorial]
  rw [hsum, abs_le] at hb
  obtain ⟨hlo, hhi⟩ := hb
  norm_num [Nat.factorial] at hlo hhi
  constructor <;> linarith

/-- Lower bound for exp at 1.875075. -/
theorem exp_pt_a_lb : (6.521303227 : ℝ) ≤ Real.exp 1.875075 := by
  have h := (exp_taylor9_bounds (show (0 : ℝ) ≤ 0.875075 by norm_num) (by norm_num)).1
  have hP : (2.399053387 : ℝ) ≤ Real.exp 0.875075 := le_trans (by norm_num) h
  have hsplit : Real.exp 1.875075 = Real.exp 1 * Real.exp 0.875075 := by
    rw [← Real.exp_add]; norm_num
  rw [hsplit]
  have h2 : (2.7182818283 : ℝ) * 2.399053387 ≤ Real.exp 1 * Real.exp 0.875075 :=
    mul_le_mul Real.exp_one_gt_d9.le hP (by norm_num) (Real.exp_pos 1).le
  have h3 : (6.521303227 : ℝ) ≤ 2.7182818283 * 2.399053387 := by norm_num
  linarith

/-- Upper bound for exp at 1.875075. -/
theorem exp_pt_a_ub : Real.exp 1.875075 ≤ 6.521308238 := by
  have h := (exp_taylor9_bounds (show (0 : ℝ) ≤ 0.875075 by norm_num) (by norm_num)).2
  have hP : Real.exp 0.875075 ≤ 2.39905523 := le_trans h (by norm_num)
  have hsplit : Real.exp 1.875075 = Real.exp 1 * Real.exp 0.875075 := by
    rw [← Real.exp_add]; norm_num
  rw [hsplit]
  have h2 : Real.exp 1 * Real.exp 0.875075 ≤ 2.7182818286 * 2.39905523 :=
    mul_le_mul Real.exp_one_lt_d9.le hP (Real.exp_pos _).le (by norm_num)
  have h3 : (2.7182818286 : ℝ) * 2.39905523 ≤ 6.521308238 := by norm_num
  linarith

/-- Lower bound for exp at 1.875135. -/
theorem exp_pt_b_lb : (6.521694512 : ℝ) ≤ Real.exp 1.875135 := by
  have h := (exp_taylor9_bounds (show (0 : ℝ) ≤ 0.875135 by norm_num) (by norm_num)).1
  have hP : (2.399197333 : ℝ) ≤ Real.exp 0.875135 := le_trans (by norm_num) h
  have hsplit : Real.exp 1.875135 = Real.exp 1 * Real.exp 0.875135 := by
    rw [← Real.exp_add]; norm_num
  rw [hsplit]
  have h2 : (2.7182818283 : ℝ) * 2.399197333 ≤ Real.exp 1 * Real.exp 0.875135 :=
    mul_le_mul Real.exp_one_gt_d9.le hP (by norm_num) (Real.exp_pos 1).le
  have h3 : (6.521694512 : ℝ) ≤ 2.7182818283 * 2.399197333 := by norm_num
  linarith

/-- Upper bound for exp at 1.875135. -/
theorem exp_pt_b_ub : Real.exp 1.875135 ≤ 6.521699529 := by
  have h := (exp_taylor9_bounds (show (0 : ℝ) ≤ 0.875135 by norm_num) (by norm_num)).2
  have hP : Real.exp 0.875135 ≤ 2.399199178 := le_trans h (by norm_num)
  have hsplit : Real.exp 1.875135 = Real.exp 1 * Real.exp 0.875135 := by
    rw [← Real.exp_add]; norm_num
  rw [hsplit]
  have h2 : Real.exp 1 * Real.exp 0.875135 ≤ 2.7182818286 * 2.399199178 :=
    mul_le_mul Real.exp_one_lt_d9.le hP (Real.exp_pos _).le (by norm_num)
  have h3 : (2.7182818286 : ℝ) * 2.399199178 ≤ 6.521699529 := by norm_num
  linarith

/-- Lower bound for exp at 1.87518. -/
theorem exp_pt_c_lb : (6.521987994 : ℝ) ≤ Real.exp 1.87518 := by
  have h := (exp_taylor9_bounds (show (0 : ℝ) ≤ 0.87518 by norm_num) (by norm_num)).1
  have hP : (2.399305299 : ℝ) ≤ Real.exp 0.87518 := le_trans (by norm_num) h
  have hsplit : Real.exp 1.87518 = Real.exp 1 * Real.exp 0.87518 := by
    rw [← Real.exp_add]; norm_num
  rw [hsplit]
  have h2 : (2.7182818283 : ℝ) * 2.399305299 ≤ Real.exp 1 * Real.exp 0.87518 :=
    mul_le_mul Real.exp_one_gt_d9.le hP (by norm_num) (Real.exp_pos 1).le
  have h3 : (6.521987994 : ℝ) ≤ 2.7182818283 * 2.399305299 := by norm_num
  linarith

/-- Upper bound for exp at 1.87518. -/
theorem exp_pt_c_ub : Real.exp 1.87518 ≤ 6.521993011 := by
  have h := (exp_taylor9_bounds (show (0 : ℝ) ≤ 0.87518 by norm_num) (by norm_num)).2
  have hP : Real.exp 0.87518 ≤ 2.399307144 := le_trans h (by norm_num)
  have hsplit : Real.exp 1.87518 = Real.exp 1 * Real.exp 0.87518 := by
    rw [← Real.exp_add]; norm_num
  rw [hsplit]
  have h2 : Real.exp 1 * Real.exp 0.87518 ≤ 2.7182818286 * 2.399307144 :=
    mul_le_mul Real.exp_one_lt_d9.le hP (Real.exp_pos _).le (by norm_num)
  have h3 : (2.7182818286 : ℝ) * 2.399307144 ≤ 6.521993011 := by norm_num
  linarith

/-- Upper bound for cosh at 1.875075. -/
theorem cosh_pt_a_ub : Real.cosh 1.875075 ≤ 3.337325911 := by
  rw [Real.cosh_eq]
  have h1 := exp_pt_a_lb
  have h2 := exp_pt_a_ub
  have hpos := Real.exp_pos (-1.875075 : ℝ)
  have hinv : Real.exp (-1.875075 : ℝ) * Real.exp 1.875075 = 1 := by
    rw [← Real.exp_add]; norm_num
  have h3 := mul_le_mul_of_nonneg_left h1 hpos.le
  rw [hinv] at h3
  linarith

/-- Lower bound for cosh at 1.875135. -/
theorem cosh_pt_b_lb : (3.337514388 : ℝ) ≤ Real.cosh 1.875135 := by
  rw [Real.cosh_eq]
  have h1 := exp_pt_b_lb
  have h2 := exp_pt_b_ub
  have hpos := Real.exp_pos (-1.875135 : ℝ)
  have hinv : Real.exp (-1.875135 : ℝ) * Real.exp 1.875135 = 1 := by
    rw [← Real.exp_add]; norm_num
  have h3 := mul_le_mul_of_nonneg_left h2 hpos.le
  rw [hinv] at h3
  linarith

/-- Lower bound for cosh at 1.87518. -/
theorem cosh_pt_c_lb : (3.337657679 : ℝ) ≤ Real.cosh 1.87518 := by
  rw [Real.cosh_eq]
  have h1 := exp_pt_c_lb
  have h2 := exp_pt_c_ub
  have hpos := Real.exp_pos (-1.87518 : ℝ)
  have hinv : Real.exp (-1.87518 : ℝ) * Real.exp 1.87518 = 1 := by
    rw [← Real.exp_add]; norm_num
  have h3 := mul_le_mul_of_nonneg_left h2 hpos.le
  rw [hinv] at h3
  linarith

/-- Sign of the characteristic function just below the first root for L = 0.3. -/
theorem equation_pos_below_root : 0 < equation 6.25025 0.3 := by
  have he : (6.25025 : ℝ) * 0.3 = 1.875075 := by norm_num
  rw [equation, he]
  have h1 := cos_pt_a_lb
  have h2 := cosh_pt_a_ub
  have h3 := Real.cosh_pos 1.875075
  have h4 := mul_le_mul_of_nonneg_right h1 h3.le
  have h5 := mul_le_mul_of_nonpos_left h2 (show (-0.299612695 : ℝ) ≤ 0 by norm_num)
  linarith

/-- Sign of the characteristic function just above the first root for L = 0.3. -/
theorem equation_neg_above_root : equation 6.25045 0.3 < 0 := by
  have he : (6.25045 : ℝ) * 0.3 = 1.875135 := by norm_num
  rw [equation, he]
  have h1 := cos_pt_b_ub
  have h2 := cosh_pt_b_lb
  have h3 := Real.cosh_pos 1.875135
  have h4 := mul_le_mul_of_nonneg_right h1 h3.le
  have h5 := mul_le_mul_of_nonpos_left h2 (show (-0.299650429 : ℝ) ≤ 0 by norm_num)
  linarith

/-- On the window claimed by the spec (within 1e-4 of 6.2507) the
characteristic function for L = 0.3 stays strictly below −1e-10. -/
theorem equation_neg_on_window (p : ℝ) (h1 : 6.2506 < p) (h2 : p < 6.2508) :
    equation p 0.3 < -1e-10 := by
  have hpl := Real.pi_gt_d6
  have hu1 : (1.87518 : ℝ) ≤ p * 0.3 := by linarith
  have hu2 : p * 0.3 ≤ 1.87524 := by linarith
  have hmem1 : (1.87518 : ℝ) ∈ Set.Icc (0 : ℝ) Real.pi := by constructor <;> linarith
  have hmem2 : p * 0.3 ∈ Set.Icc (0 : ℝ) Real.pi := by constructor <;> linarith
  have hcos : Real.cos (p * 0.3) ≤ Real.cos 1.87518 :=
    Real.strictAntiOn_cos.antitoneOn hmem1 hmem2 hu1
  have hcosh : Real.cosh 1.87518 ≤ Real.cosh (p * 0.3) := by
    rw [Real.cosh_le_cosh, abs_of_nonneg (show (0 : ℝ) ≤ 1.87518 by norm_num),
      abs_of_nonneg (show (0 : ℝ) ≤ p * 0.3 by linarith)]
    exact hu1
  have hc : Real.cos (p * 0.3) ≤ -0.299693352 := le_trans hcos cos_pt_c_ub
  have hk : (3.337657679 : ℝ) ≤ Real.cosh (p * 0.3) := le_trans cosh_pt_c_lb hcosh
  have h3 := Real.cosh_pos (p * 0.3)
  have h4 := mul_le_mul_of_nonneg_right hc h3.le
  have h5 := mul_le_mul_of_nonpos_left hk (show (-0.299693352 : ℝ) ≤ 0 by norm_num)
  rw [equation]
  linarith

/-- C4 counterexample: for L = 0.3 the two requirements of the claim are
jointly unsatisfiable — every p within 1e-4 of 6.2507 drives the
characteristic function strictly below −1e-10, so no near-root of the
characteristic equation (in particular not the root returned by the
solver, whose residual the claim bounds by 1e-10) lies in that window.
The actual first root is ≈ 6.25035, about 3.5e-4 away from 6.2507. -/
theorem C4_counterexample :
    ¬ ∃ p : ℝ, |equation p 0.3| < 1e-10 ∧ |p - 6.2507| < 1e-4 := by
  rintro ⟨p, hres, hwin⟩
  rw [show (1e-4 : ℝ) = 0.0001 by norm_num] at hwin
  obtain ⟨hw1, hw2⟩ := abs_lt.1 hwin
  have h1 : (6.2506 : ℝ) < p := by linarith
  have h2 : p < 6.2508 := by linarith
  have hneg := equation_neg_on_window p h1 h2
  have h3 := (abs_lt.1 hres).1
  linarith

/-- C4 amended: for L = 0.3 the characteristic equation has a strictly
positive root p with residual |1 + cos(p·0.3)·cosh(p·0.3)| < 1e-10 lying
within 1e-4 of 6.25035 (instead of 6.2507 as the claim states). -/
theorem C4_first_root_location :
    ∃ p : ℝ, 0 < p ∧ equation p 0.3 = 0 ∧ |equation p 0.3| < 1e-10 ∧
      |p - 6.25035| < 1e-4 := by
  have ha := equation_pos_below_root
  have hb := equation_neg_above_root
  have hcont : ContinuousOn (fun x : ℝ => equation x 0.3) (Set.Icc 6.25025 6.25045) := by
    apply Continuous.continuousOn
    unfold equation
    fun_prop
  have hsub := intermediate_value_Icc' (by norm_num : (6.25025 : ℝ) ≤ 6.25045) hcont
  have h0mem : (0 : ℝ) ∈ Set.Icc (equation 6.25045 0.3) (equation 6.25025 0.3) :=
    ⟨hb.le, ha.le⟩
  obtain ⟨p, hpmem, hp0⟩ := hsub h0mem
  obtain ⟨hp1, hp2⟩ := hpmem
  have hp0' : equation p 0.3 = 0 := hp0
  have hne1 : p ≠ 6.25025 := by
    intro hcontra
    rw [hcontra] at hp0'
    exact absurd hp0' (ne_of_gt ha)
  have hne2 : p ≠ 6.25045 := by
    intro hcontra
    rw [hcontra] at hp0'
    exact absurd hp0' (ne_of_lt hb)
  have hlt1 : (6.25025 : ℝ) < p := lt_of_le_of_ne hp1 (Ne.symm hne1)
  have hlt2 : p < 6.25045 := lt_of_le_of_ne hp2 hne2
  refine ⟨p, by linarith, hp0', ?_, ?_⟩
  · rw [hp0', abs_zero]
    norm_num
  · rw [show (1e-4 : ℝ) = 0.0001 by norm_num, abs_lt]
    constructor <;> linarith

end

end RulerFrequency
